import Mathlib

/-!
A shallow embedding of the contact-book data model of `src/ex01/models.py`
(classes `Phone`, `Birthday`, `Record`, `AddressBook`) together with the
CPython `datetime` operations the code calls (`strptime` with format
`"%d.%m.%Y"`, `date.replace(year=...)`, `date.weekday()`, date subtraction,
`date + timedelta(days=n)` and `strftime("%Y.%m.%d")`), and proofs of the
specification claims about them.

Python exceptions are modelled by `PyErr`; operations that can raise return
`Except PyErr _`.  Mutating methods on `Record`/`AddressBook` are modelled in
state-passing style, returning the outcome together with the state as it is
at the moment the method returns or raises, so that atomicity of failing
calls is an actual theorem rather than a consequence of the encoding.
-/

namespace ContactBook

/-! ### Python exceptions and the spec's error vocabulary -/

/-- A single quote character, used to build exception messages without
apostrophe literals. -/
def sq : String := String.mk [Char.ofNat 39]

/-- The Python exception classes raised by the code under scrutiny, with their
messages. -/
inductive PyErr where
  | typeError (msg : String)
  | valueError (msg : String)
  | keyError (msg : String)
  | attributeError (msg : String)
deriving DecidableEq, Repr

/-- The f-string message of `Record.edit_phone`'s not-found error. -/
def phoneNotFoundMsg (oldPhone : String) : String :=
  "Phone " ++ sq ++ oldPhone ++ sq ++ " not found"

/-- The f-string message of `AddressBook.delete`'s `KeyError`. -/
def contactNotFoundMsg (name : String) : String :=
  "Contact " ++ sq ++ name ++ sq ++ " not found"

/-- The f-string message of `AddressBook.add_record`'s duplicate error. -/
def recordExistsMsg (name : String) : String :=
  "Record with name " ++ sq ++ name ++ sq ++ " already exists"

/-- The spec's `InvalidArgument` kind: the `TypeError`s and the validation
`ValueError`s raised by the field constructors. -/
def PyErr.IsInvalidArgument (e : PyErr) : Prop :=
  (∃ m, e = .typeError m) ∨
  e = .valueError "Phone number must contain exactly 10 digits" ∨
  e = .valueError "Invalid date format. Use DD.MM.YYYY" ∨
  e = .valueError "Name must not be empty"

/-- The spec's `DuplicateField` kind, by the raise sites in the code. -/
def PyErr.IsDuplicateField (e : PyErr) : Prop :=
  e = .valueError "Phone already exists" ∨
  e = .valueError "New phone already exists" ∨
  e = .valueError "Birthday already exists" ∨
  ∃ n, e = .valueError (recordExistsMsg n)

/-- The spec's `NotFound` kind, by the raise sites in the code. -/
def PyErr.IsNotFound (e : PyErr) : Prop :=
  e = .valueError "Phone not found" ∨
  (∃ x, e = .valueError (phoneNotFoundMsg x)) ∨
  ∃ n, e = .keyError (contactNotFoundMsg n)

/-! ### Calendar arithmetic (proleptic Gregorian, as in CPython `datetime`) -/

def isLeap (y : Nat) : Bool :=
  (y % 4 == 0 && y % 100 != 0) || y % 400 == 0

def daysInMonth (y m : Nat) : Nat :=
  if m = 2 then (if isLeap y then 29 else 28)
  else if m = 4 ∨ m = 6 ∨ m = 9 ∨ m = 11 then 30
  else 31

structure Date where
  year : Nat
  month : Nat
  day : Nat
deriving DecidableEq, Repr

/-- The field bounds `datetime.date` guarantees for a constructed date,
without the `MAXYEAR` cap (which plays no role in day arithmetic). -/
def Date.ok (d : Date) : Bool :=
  1 ≤ d.year && 1 ≤ d.month && d.month ≤ 12 && 1 ≤ d.day &&
    d.day ≤ daysInMonth d.year d.month

/-- Number of days in years `1 .. y-1`, as in CPython `datetime._days_before_year`. -/
def daysBeforeYear (y : Nat) : Nat :=
  365 * (y - 1) + ((y - 1) / 4 - (y - 1) / 100) + (y - 1) / 400

/-- Number of days in year `y` strictly before month `m`. -/
def daysBeforeMonth (y m : Nat) : Nat :=
  ((List.range (m - 1)).map (fun i => daysInMonth y (i + 1))).sum

/-- Embeds `date.toordinal()`: day 1 is 0001-01-01. -/
def Date.toOrdinal (d : Date) : Nat :=
  daysBeforeYear d.year + daysBeforeMonth d.year d.month + d.day

/-- Embeds `date.weekday()`: Monday = 0, ..., Sunday = 6 (0001-01-01 is a Monday). -/
def Date.weekday (d : Date) : Nat :=
  (d.toOrdinal + 6) % 7

/-- Date subtraction, in days (`(a - b).days` on `datetime.date`). -/
def Date.sub (a b : Date) : Int :=
  (a.toOrdinal : Int) - (b.toOrdinal : Int)

/-- The calendar successor of a date. -/
def Date.nextDay (d : Date) : Date :=
  if d.day < daysInMonth d.year d.month then ⟨d.year, d.month, d.day + 1⟩
  else if d.month < 12 then ⟨d.year, d.month + 1, 1⟩
  else ⟨d.year + 1, 1, 1⟩

/-- Embeds `date + timedelta(days=n)` for `n ≥ 0`. -/
def Date.addDays (d : Date) : Nat → Date
  | 0 => d
  | n + 1 => (Date.addDays d n).nextDay

/-- Decimal rendering of `n` left-padded with zeros to width `w`. -/
def padNum (w n : Nat) : String :=
  String.mk (List.replicate (w - (toString n).length) (Char.ofNat 48)) ++ toString n

/-- Embeds `date.strftime("%Y.%m.%d")` (CPython zero-pads month and day to 2 and the
year to 4 digits for the years reachable here). -/
def Date.strftimeYMD (d : Date) : String :=
  padNum 4 d.year ++ "." ++ padNum 2 d.month ++ "." ++ padNum 2 d.day

/-- Embeds `date.replace(year=y)`: rebuilds the date with the new year, revalidating;
a Feb 29 moved to a non-leap year raises `ValueError`. -/
def pyReplaceYear (d : Date) (y : Nat) : Except PyErr Date :=
  if 1 ≤ y ∧ y ≤ 9999 then
    if d.day ≤ daysInMonth y d.month then .ok ⟨y, d.month, d.day⟩
    else .error (.valueError "day is out of range for month")
  else .error (.valueError "year is out of range")

/-! ### Field validators (`Phone`, `Birthday` of `models.py`) -/

/-- Python `str.isdigit()` on the decimal-digit fragment: non-empty and every
character a decimal digit. -/
def pyIsDigit (s : String) : Bool :=
  !s.data.isEmpty && s.data.all Char.isDigit

structure Phone where
  value : String
deriving DecidableEq, Repr

/-- Embeds `Phone.__init__` for a string argument (`models.py` lines 59-74): raises
`ValueError` unless the value is all digits of length exactly 10. -/
def Phone.init (value : String) : Except PyErr Phone :=
  if !pyIsDigit value || value.length ≠ 10 then
    .error (.valueError "Phone number must contain exactly 10 digits")
  else .ok ⟨value⟩

/-- Split a character list at every dot; `n` dots yield `n + 1` fields, none
of which contains a dot. -/
def splitDots : List Char → List (List Char)
  | [] => [[]]
  | c :: cs =>
      if c = '.' then [] :: splitDots cs
      else
        match splitDots cs with
        | f :: rest => (c :: f) :: rest
        | [] => [[c]]

/-- Numeric value of a digit-character list. -/
def digitsVal (cs : List Char) : Nat :=
  cs.foldl (fun a c => 10 * a + (c.toNat - 48)) 0

/-- The `%d` field of CPython `_strptime`: regex
`3[01]|[12]\d|0[1-9]|[1-9]`, i.e. one or two digits with value 1..31. -/
def dayField (cs : List Char) : Bool :=
  cs.all Char.isDigit && 1 ≤ cs.length && cs.length ≤ 2 &&
    1 ≤ digitsVal cs && digitsVal cs ≤ 31

/-- The `%m` field of CPython `_strptime`: regex `1[0-2]|0[1-9]|[1-9]`,
i.e. one or two digits with value 1..12. -/
def monthField (cs : List Char) : Bool :=
  cs.all Char.isDigit && 1 ≤ cs.length && cs.length ≤ 2 &&
    1 ≤ digitsVal cs && digitsVal cs ≤ 12

/-- The `%Y` field of CPython `_strptime`: regex `\d\d\d\d`, exactly four
digits. -/
def yearField (cs : List Char) : Bool :=
  cs.all Char.isDigit && cs.length = 4

/-- Embeds `datetime.strptime(s, "%d.%m.%Y")` (date part): the whole string must be
day-field, dot, month-field, dot, year-field (no unconverted data), and the
resulting triple must be a constructible `datetime` (year ≥ `MINYEAR` = 1,
day within the month).  Returns `none` where CPython raises `ValueError`. -/
def strptimeDMY (s : String) : Option Date :=
  match splitDots s.data with
  | [ds, ms, ys] =>
      if dayField ds && monthField ms && yearField ys then
        let d : Date := ⟨digitsVal ys, digitsVal ms, digitsVal ds⟩
        if 1 ≤ d.year ∧ d.day ≤ daysInMonth d.year d.month then some d else none
      else none
  | _ => none

structure Birthday where
  value : Date
deriving DecidableEq, Repr

/-- The possible runtime arguments of `Birthday.__init__`: a `datetime`
value, a string, or anything else. -/
inductive BirthdayInput where
  | dt (d : Date)
  | str (s : String)
  | other
deriving Repr

/-- Embeds `Birthday.__init__` (`models.py` lines 84-108): stores a `datetime`
directly, parses a string with `strptime("%d.%m.%Y")` re-raising parse
failures as `ValueError("Invalid date format. Use DD.MM.YYYY")`, and raises
`TypeError` on any other argument. -/
def Birthday.init : BirthdayInput → Except PyErr Birthday
  | .dt d => .ok ⟨d⟩
  | .str s =>
      match strptimeDMY s with
      | some d => .ok ⟨d⟩
      | none => .error (.valueError "Invalid date format. Use DD.MM.YYYY")
  | .other =>
      .error (.typeError
        ("Birthday number must be a string in " ++ sq ++ "DD.MM.YYYY" ++ sq ++
          " format or datetime"))

/-! ### `Record` (`models.py` lines 111-206)

Mutating methods return `Except PyErr Unit × Record`: the first component is
the normal/raise outcome, the second the state of the record at that moment,
so partial mutation on failure would be observable. -/

structure Record where
  name : String
  phones : List Phone
  birthday : Option Birthday
deriving DecidableEq, Repr

/-- Embeds `Record(name)` with a pre-validated name and no phones or birthday. -/
def Record.make (name : String) : Record :=
  ⟨name, [], none⟩

/-- Embeds `Record.add_birthday` (lines 128-141): refuses a second birthday, then
constructs and stores a `Birthday`. -/
def Record.addBirthday (r : Record) (bday : BirthdayInput) :
    Except PyErr Unit × Record :=
  match r.birthday with
  | some _ => (.error (.valueError "Birthday already exists"), r)
  | none =>
      match Birthday.init bday with
      | .ok b => (.ok (), { r with birthday := some b })
      | .error e => (.error e, r)

/-- Embeds `Record.add_phone` (lines 143-156): validates, refuses duplicates, then
appends. -/
def Record.addPhone (r : Record) (phone : String) :
    Except PyErr Unit × Record :=
  match Phone.init phone with
  | .error e => (.error e, r)
  | .ok newPhone =>
      if newPhone ∈ r.phones then
        (.error (.valueError "Phone already exists"), r)
      else (.ok (), { r with phones := r.phones ++ [newPhone] })

/-- Python `list.remove`: delete the first element equal to `p`, `none` when
absent (where Python raises `ValueError`). -/
def listRemoveFirst : List Phone → Phone → Option (List Phone)
  | [], _ => none
  | x :: xs, p =>
      if x = p then some xs else (listRemoveFirst xs p).map (fun l => x :: l)

/-- Python `list.index`: position of the first element equal to `p`. -/
def listIndexFirst : List Phone → Phone → Option Nat
  | [], _ => none
  | x :: xs, p =>
      if x = p then some 0 else (listIndexFirst xs p).map (fun i => i + 1)

/-- Embeds `Record.remove_phone` (lines 158-171): `self.phones.remove(Phone(phone))`
inside `try`, with any `ValueError` (from `Phone` validation or from
`list.remove`) re-raised as `ValueError("Phone not found")`. -/
def Record.removePhone (r : Record) (phone : String) :
    Except PyErr Unit × Record :=
  match Phone.init phone with
  | .error (.valueError _) => (.error (.valueError "Phone not found"), r)
  | .error e => (.error e, r)
  | .ok p =>
      match listRemoveFirst r.phones p with
      | some l => (.ok (), { r with phones := l })
      | none => (.error (.valueError "Phone not found"), r)

/-- Embeds `Record.edit_phone` (lines 173-191): `Phone(new_phone)` duplicate check
outside the `try`; inside it, `list.index(Phone(old_phone))` and the
in-place assignment `self.phones[index] = Phone(new_phone)`, with any
`ValueError` re-raised as the f-string not-found error. -/
def Record.editPhone (r : Record) (oldPhone newPhone : String) :
    Except PyErr Unit × Record :=
  match Phone.init newPhone with
  | .error e => (.error e, r)
  | .ok np =>
      if np ∈ r.phones then
        (.error (.valueError "New phone already exists"), r)
      else
        match Phone.init oldPhone with
        | .error (.valueError _) =>
            (.error (.valueError (phoneNotFoundMsg oldPhone)), r)
        | .error e => (.error e, r)
        | .ok op =>
            match listIndexFirst r.phones op with
            | none => (.error (.valueError (phoneNotFoundMsg oldPhone)), r)
            | some i =>
                match Phone.init newPhone with
                | .ok np2 => (.ok (), { r with phones := r.phones.set i np2 })
                | .error (.valueError _) =>
                    (.error (.valueError (phoneNotFoundMsg oldPhone)), r)
                | .error e => (.error e, r)

/-- Embeds `Record.find_phone` (lines 193-206): first phone whose `value` equals the
argument string, else `None`; never raises. -/
def Record.findPhone (r : Record) (phone : String) : Option Phone :=
  r.phones.find? (fun p => p.value = phone)

/-! ### `AddressBook` (`models.py` lines 213-313)

The `UserDict` data is an insertion-ordered mapping from name strings to
records; it is modelled as an association list with (reachably invariant)
unique keys. -/

structure AddressBook where
  data : List (String × Record)
deriving DecidableEq, Repr

def AddressBook.keys (book : AddressBook) : List String :=
  book.data.map Prod.fst

/-- Embeds `AddressBook.add_record` (lines 216-231): rejects a duplicate name, then
inserts at the end of the iteration order (Python dict insertion order).
The `isinstance` guard cannot fire in this typed embedding. -/
def AddressBook.addRecord (book : AddressBook) (record : Record) :
    Except PyErr Unit × AddressBook :=
  if book.keys.contains record.name then
    (.error (.valueError (recordExistsMsg record.name)), book)
  else (.ok (), ⟨book.data ++ [(record.name, record)]⟩)

/-- Embeds `AddressBook.find` (lines 233-243): `dict.get`. -/
def AddressBook.find (book : AddressBook) (name : String) : Option Record :=
  (book.data.find? (fun p => p.1 = name)).map Prod.snd

/-- Embeds `AddressBook.delete` (lines 245-257): `KeyError` when absent, else
`del self.data[name]` (keys are unique, so dropping every pair with that key
deletes exactly the one entry). -/
def AddressBook.delete (book : AddressBook) (name : String) :
    Except PyErr Unit × AddressBook :=
  if book.keys.contains name then
    (.ok (), ⟨book.data.filter (fun p => p.1 ≠ name)⟩)
  else
    (.error (.keyError (contactNotFoundMsg name)), book)

/-! ### The upcoming-birthdays query (`models.py` lines 259-310) -/

/-- The `bdays` list comprehension (lines 275-278):
`record.birthday.value.date().replace(year=today.year)` for every record, in
iteration order.  Accessing `.value` on a `None` birthday raises
`AttributeError`; `replace` can raise `ValueError`; the first exception
aborts the comprehension. -/
def recomputeBdays (records : List Record) (today : Date) :
    Except PyErr (List Date) :=
  match records with
  | [] => .ok []
  | r :: rest =>
      match r.birthday with
      | none =>
          .error (.attributeError
            (sq ++ "NoneType" ++ sq ++ " object has no attribute " ++ sq ++
              "value" ++ sq))
      | some b =>
          match pyReplaceYear b.value today.year with
          | .error e => .error e
          | .ok d =>
              match recomputeBdays rest today with
              | .error e => .error e
              | .ok ds => .ok (d :: ds)

/-- The first `congrat_dates` comprehension (lines 280-288): keep `bday` when
`timedelta(0) ≤ bday - today ≤ timedelta(7)`, else `None`. -/
def windowKeep (today bday : Date) : Option Date :=
  if 0 ≤ Date.sub bday today ∧ Date.sub bday today ≤ 7 then some bday else none

/-- The second `congrat_dates` comprehension (lines 290-298): a kept date
with `weekday() >= SATURDAY` (5) moves forward by `7 - weekday()` days;
`None` and weekday dates pass through. -/
def weekendShift : Option Date → Option Date
  | none => none
  | some d =>
      if d.weekday ≥ 5 then some (d.addDays (7 - d.weekday)) else some d

/-- The final loop (lines 300-310): zip names with the shifted dates and emit
`(name, date.strftime("%Y.%m.%d"))` for the non-`None` entries. -/
def emitPairs (names : List String) (dates : List (Option Date)) :
    List (String × String) :=
  (names.zip dates).filterMap (fun p => p.2.map (fun d => (p.1, d.strftimeYMD)))

/-- Embeds `AddressBook.get_upcoming_birthdays` (lines 259-310), with `today`
explicit (`datetime.today().date()` in the code). -/
def AddressBook.getUpcomingBirthdays (book : AddressBook) (today : Date) :
    Except PyErr (List (String × String)) :=
  if book.data.length = 0 then .ok []
  else
    match recomputeBdays (book.data.map Prod.snd) today with
    | .error e => .error e
    | .ok bdays =>
        .ok (emitPairs book.keys ((bdays.map (windowKeep today)).map weekendShift))

/-! ### Helper lemmas about the calendar -/

theorem daysInMonth_pos (y m : Nat) : 1 ≤ daysInMonth y m := by
  unfold daysInMonth
  split_ifs <;> omega

theorem daysInMonth_twelve (y : Nat) : daysInMonth y 12 = 31 := by
  norm_num [daysInMonth]

theorem daysBeforeMonth_succ (y m : Nat) (hm : 1 ≤ m) :
    daysBeforeMonth y (m + 1) = daysBeforeMonth y m + daysInMonth y m := by
  obtain ⟨k, rfl⟩ : ∃ k, m = k + 1 := ⟨m - 1, by omega⟩
  simp [daysBeforeMonth, List.range_succ]

theorem daysBeforeMonth_twelve (y : Nat) :
    daysBeforeMonth y 12 = 334 + (if isLeap y then 1 else 0) := by
  cases h : isLeap y <;>
    simp [daysBeforeMonth, daysInMonth, h, List.range_succ]

theorem daysBeforeYear_succ (y : Nat) (hy : 1 ≤ y) :
    daysBeforeYear (y + 1) = daysBeforeYear y + 365 + (if isLeap y then 1 else 0) := by
  unfold daysBeforeYear isLeap
  rcases eq_or_ne (y % 4) 0 with h4 | h4 <;>
    rcases eq_or_ne (y % 100) 0 with h100 | h100 <;>
      rcases eq_or_ne (y % 400) 0 with h400 | h400 <;>
        simp [h4, h100, h400] <;> omega

theorem toOrdinal_nextDay (d : Date) (h : d.ok = true) :
    d.nextDay.toOrdinal = d.toOrdinal + 1 := by
  obtain ⟨y, m, day⟩ := d
  simp only [Date.ok, Bool.and_eq_true, decide_eq_true_eq] at h
  obtain ⟨⟨⟨⟨hy, hm1⟩, hm2⟩, hd1⟩, hd2⟩ := h
  unfold Date.nextDay
  split
  · simp [Date.toOrdinal]; omega
  · split
    · next hlt hm12 =>
        simp only [Date.toOrdinal] at *
        rw [daysBeforeMonth_succ y m hm1]
        simp at *
        omega
    · next hlt hm12 =>
        simp only [not_lt] at hlt hm12
        have hm : m = 12 := by omega
        subst hm
        have hdim : daysInMonth y 12 = 31 := daysInMonth_twelve y
        have hday : day = 31 := by omega
        subst hday
        simp only [Date.toOrdinal]
        rw [daysBeforeYear_succ y hy, daysBeforeMonth_twelve]
        have h1 : daysBeforeMonth (y + 1) 1 = 0 := by simp [daysBeforeMonth]
        rw [h1]
        cases isLeap y <;> simp

theorem nextDay_ok (d : Date) (h : d.ok = true) : d.nextDay.ok = true := by
  obtain ⟨y, m, day⟩ := d
  simp only [Date.ok, Bool.and_eq_true, decide_eq_true_eq] at h ⊢
  obtain ⟨⟨⟨⟨hy, hm1⟩, hm2⟩, hd1⟩, hd2⟩ := h
  unfold Date.nextDay
  split
  · simp only [Bool.and_eq_true, decide_eq_true_eq]
    refine ⟨⟨⟨⟨hy, hm1⟩, hm2⟩, by omega⟩, by simp at *; omega⟩
  · split
    · next h1 h2 =>
        simp only [Bool.and_eq_true, decide_eq_true_eq]
        simp at h2
        exact ⟨⟨⟨⟨hy, by omega⟩, by omega⟩, by omega⟩, by
          simpa using daysInMonth_pos y (m + 1)⟩
    · simp only [Bool.and_eq_true, decide_eq_true_eq]
      exact ⟨⟨⟨⟨by omega, by omega⟩, by omega⟩, by omega⟩, by
        simpa using daysInMonth_pos (y + 1) 1⟩

theorem addDays_ok (d : Date) (n : Nat) (h : d.ok = true) :
    (d.addDays n).ok = true := by
  induction n with
  | zero => exact h
  | succ k ih => exact nextDay_ok _ ih

theorem toOrdinal_addDays (d : Date) (n : Nat) (h : d.ok = true) :
    (d.addDays n).toOrdinal = d.toOrdinal + n := by
  induction n with
  | zero => rfl
  | succ k ih =>
      have := toOrdinal_nextDay (d.addDays k) (addDays_ok d k h)
      simp only [Date.addDays]
      omega

theorem weekday_addDays (d : Date) (n : Nat) (h : d.ok = true) :
    (d.addDays n).weekday = (d.weekday + n) % 7 := by
  simp only [Date.weekday, toOrdinal_addDays d n h]
  omega

/-! ### Characterizing the upcoming-birthdays query -/

/-- A book entry on which the `bdays` comprehension does not raise: the
record has a birthday and recomputing it into `today`'s year succeeds. -/
def recordBdayOk (today : Date) (p : String × Record) : Bool :=
  match p.2.birthday with
  | none => false
  | some b =>
      match pyReplaceYear b.value today.year with
      | .ok _ => true
      | .error _ => false

/-- The record's birthday recomputed into `today`'s year, where defined. -/
def recomputedDate (today : Date) (p : String × Record) : Option Date :=
  match p.2.birthday with
  | none => none
  | some b =>
      match pyReplaceYear b.value today.year with
      | .ok d => some d
      | .error _ => none

/-- What the query emits for one book entry: the recomputed birthday, kept
only inside the 7-day window, weekend-shifted, formatted. -/
def upcomingEntry (today : Date) (p : String × Record) :
    Option (String × String) :=
  match recomputedDate today p with
  | none => none
  | some d =>
      (weekendShift (windowKeep today d)).map (fun d2 => (p.1, d2.strftimeYMD))

theorem recomputeBdays_ok (l : List (String × Record)) (today : Date)
    (h : ∀ p ∈ l, recordBdayOk today p = true) :
    recomputeBdays (l.map Prod.snd) today =
      .ok (l.filterMap (recomputedDate today)) := by
  induction l with
  | nil => rfl
  | cons p rest ih =>
      have hp := h p (by simp)
      unfold recordBdayOk at hp
      cases hb : p.2.birthday with
      | none => simp [hb] at hp
      | some b =>
          cases hr : pyReplaceYear b.value today.year with
          | error e => simp [hb, hr] at hp
          | ok d =>
              simp only [List.map_cons, List.filterMap_cons, recomputeBdays, hb,
                hr]
              rw [ih (fun q hq => h q (by simp [hq]))]
              simp [recomputedDate, hb, hr]

theorem emitPairs_pipeline (l : List (String × Record)) (today : Date)
    (h : ∀ p ∈ l, recordBdayOk today p = true) :
    emitPairs (l.map Prod.fst)
        (((l.filterMap (recomputedDate today)).map (windowKeep today)).map
          weekendShift) =
      l.filterMap (upcomingEntry today) := by
  induction l with
  | nil => rfl
  | cons p rest ih =>
      have hp := h p (by simp)
      unfold recordBdayOk at hp
      cases hb : p.2.birthday with
      | none => simp [hb] at hp
      | some b =>
          cases hr : pyReplaceYear b.value today.year with
          | error e => simp [hb, hr] at hp
          | ok d =>
              have hrec : recomputedDate today p = some d := by
                simp [recomputedDate, hb, hr]
              simp only [List.map_cons, List.filterMap_cons, hrec]
              have ih2 := ih (fun q hq => h q (by simp [hq]))
              cases hs : weekendShift (windowKeep today d) with
              | none =>
                  simp only [emitPairs, List.map_cons, List.zip_cons_cons,
                    List.filterMap_cons, hs, Option.map_none, upcomingEntry,
                    hrec]
                  simpa [emitPairs] using ih2
              | some d2 =>
                  simp only [emitPairs, List.map_cons, List.zip_cons_cons,
                    List.filterMap_cons, hs, Option.map_some, upcomingEntry,
                    hrec]
                  simpa [emitPairs] using ih2

/-- On a book where every record has a recomputable birthday, the query
succeeds and returns exactly the per-record entries, in iteration order. -/
theorem getUpcomingBirthdays_eq (book : AddressBook) (today : Date)
    (h : ∀ p ∈ book.data, recordBdayOk today p = true) :
    book.getUpcomingBirthdays today =
      .ok (book.data.filterMap (upcomingEntry today)) := by
  unfold AddressBook.getUpcomingBirthdays
  cases hd : book.data with
  | nil => simp
  | cons p rest =>
      rw [← hd]
      have hlen : ¬ book.data.length = 0 := by simp [hd]
      rw [if_neg hlen, recomputeBdays_ok book.data today h]
      exact congrArg Except.ok (emitPairs_pipeline book.data today h)

/-! ### Feb 29 recomputation -/

/-- A book entry whose record has a birthday whose stored date is a
well-formed calendar date. -/
def recordBdayValid (p : String × Record) : Bool :=
  match p.2.birthday with
  | none => false
  | some b => b.value.ok

/-- A book entry whose record's birthday falls on February 29. -/
def hasFeb29 (p : String × Record) : Bool :=
  match p.2.birthday with
  | none => false
  | some b => b.value.month == 2 && b.value.day == 29

theorem daysInMonth_ne_two (y1 y2 m : Nat) (h : m ≠ 2) :
    daysInMonth y1 m = daysInMonth y2 m := by
  unfold daysInMonth
  rw [if_neg h, if_neg h]

theorem daysInMonth_feb_le (y : Nat) : daysInMonth y 2 ≤ 29 := by
  unfold daysInMonth
  split_ifs <;> omega

theorem recomputeBdays_feb29 (l : List (String × Record)) (today : Date)
    (hv : ∀ p ∈ l, recordBdayValid p = true)
    (hf : ∃ p ∈ l, hasFeb29 p = true)
    (hy1 : 1 ≤ today.year) (hy2 : today.year ≤ 9999)
    (hl : isLeap today.year = false) :
    recomputeBdays (l.map Prod.snd) today =
      .error (.valueError "day is out of range for month") := by
  induction l with
  | nil =>
      obtain ⟨q, hq, _⟩ := hf
      exact absurd hq (by simp)
  | cons p rest ih =>
      have hpv := hv p (by simp)
      unfold recordBdayValid at hpv
      cases hb : p.2.birthday with
      | none => simp [hb] at hpv
      | some b =>
          simp only [hb] at hpv
          by_cases hp29 : hasFeb29 p = true
          · unfold hasFeb29 at hp29
            simp only [hb, Bool.and_eq_true, beq_iff_eq] at hp29
            obtain ⟨hm2, hd29⟩ := hp29
            have hdim : daysInMonth today.year 2 = 28 := by
              simp [daysInMonth, hl]
            simp [recomputeBdays, hb, pyReplaceYear, hm2, hd29, hdim, hy1, hy2]
          · have hrepl : pyReplaceYear b.value today.year =
                .ok ⟨today.year, b.value.month, b.value.day⟩ := by
              unfold Date.ok at hpv
              simp only [Bool.and_eq_true, decide_eq_true_eq] at hpv
              obtain ⟨⟨⟨⟨hby, hbm1⟩, hbm2⟩, hbd1⟩, hbd2⟩ := hpv
              unfold hasFeb29 at hp29
              simp only [hb, Bool.and_eq_true, beq_iff_eq, not_and] at hp29
              have hday : b.value.day ≤ daysInMonth today.year b.value.month := by
                by_cases hm : b.value.month = 2
                · have h29 : b.value.day ≠ 29 := fun hc => hp29 hm hc
                  have hle := daysInMonth_feb_le b.value.year
                  have hdim : daysInMonth today.year 2 = 28 := by
                    simp [daysInMonth, hl]
                  rw [hm] at hbd2 ⊢
                  omega
                · rw [daysInMonth_ne_two today.year b.value.year _ hm]
                  exact hbd2
              unfold pyReplaceYear
              rw [if_pos ⟨hy1, hy2⟩, if_pos hday]
            obtain ⟨q, hq, hq29⟩ := hf
            rcases List.mem_cons.1 hq with rfl | hqrest
            · exact absurd hq29 hp29
            · simp only [List.map_cons, recomputeBdays, hb, hrepl]
              rw [ih (fun r hr => hv r (by simp [hr])) ⟨q, hqrest, hq29⟩]

/-! ### Sample data for concrete instantiations (the spec's reminder
scenario: today is Monday 2024-06-10) -/

def recA : Record := ⟨"A", [], some ⟨⟨2000, 6, 12⟩⟩⟩
def recB : Record := ⟨"B", [], some ⟨⟨2000, 6, 15⟩⟩⟩
def recC : Record := ⟨"C", [], some ⟨⟨2000, 6, 20⟩⟩⟩
def recD : Record := ⟨"D", [], none⟩
def recJan : Record := ⟨"J", [], some ⟨⟨2000, 1, 10⟩⟩⟩
def recLeap : Record := ⟨"L", [], some ⟨⟨2000, 2, 29⟩⟩⟩
def bookABC : AddressBook := ⟨[("A", recA), ("B", recB), ("C", recC)]⟩
def bookAD : AddressBook := ⟨[("A", recA), ("D", recD)]⟩
def today0 : Date := ⟨2024, 6, 10⟩

/-! ### The claims -/

/-- C1: the claim states that on a book containing a record without a
birthday the upcoming-birthdays query completes without error and merely
excludes that record.  The code instead evaluates
`record.birthday.value` for every record, so a `None` birthday raises
`AttributeError` and the query crashes; the `list[datetime | None]`
annotation and the downstream `None` guards in the same method show the
spec's exclusion behaviour was the intent.  This theorem evaluates the
embedded code at the failing input: a book whose records are `recA`
(birthday 2000-06-12, in range) and `recD` (no birthday), queried on
2024-06-10. -/
theorem claim1_no_birthday_record_crashes_query :
    bookAD.getUpcomingBirthdays today0 =
      .error (.attributeError
        (sq ++ "NoneType" ++ sq ++ " object has no attribute " ++ sq ++
          "value" ++ sq)) := rfl

/-- C2 counterexample: the claim states a February 29 birthday recomputed
into a non-leap current year does not crash the query (clamped or skipped).
At the concrete input of a book with one record whose birthday is
2000-02-29 and `today` = 2023-07-01 (2023 is not a leap year), the query
raises `ValueError` instead of producing a result. -/
theorem claim2_cex_feb29_raises :
    (AddressBook.mk [("L", recLeap)]).getUpcomingBirthdays ⟨2023, 7, 1⟩ =
      .error (.valueError "day is out of range for month") := rfl

/-- C2 (amended): for every book in which all records carry well-formed
birthdays and at least one birthday is February 29, running the
upcoming-birthdays query in a non-leap current year raises
`ValueError("day is out of range for month")` — the record is neither
clamped to February 28 nor skipped. -/
theorem claim2_amended_feb29_raises (book : AddressBook) (today : Date)
    (hv : ∀ p ∈ book.data, recordBdayValid p = true)
    (hf : ∃ p ∈ book.data, hasFeb29 p = true)
    (hy1 : 1 ≤ today.year) (hy2 : today.year ≤ 9999)
    (hl : isLeap today.year = false) :
    book.getUpcomingBirthdays today =
      .error (.valueError "day is out of range for month") := by
  unfold AddressBook.getUpcomingBirthdays
  have hne : ¬ book.data.length = 0 := by
    obtain ⟨q, hq, _⟩ := hf
    cases hd : book.data with
    | nil => rw [hd] at hq; exact absurd hq (by simp)
    | cons r rest => simp [hd]
  rw [if_neg hne, recomputeBdays_feb29 book.data today hv hf hy1 hy2 hl]

/-- C2 witness: the amended theorem applied at a two-record book (a January
birthday followed by a February 29 birthday) queried on 2025-01-15. -/
theorem claim2_witness_feb29_raises :
    (AddressBook.mk [("J", recJan), ("L", recLeap)]).getUpcomingBirthdays
        ⟨2025, 1, 15⟩ =
      .error (.valueError "day is out of range for month") :=
  claim2_amended_feb29_raises _ _ (by decide)
    ⟨("L", recLeap), by decide, by decide⟩ (by decide) (by decide) (by decide)

theorem windowKeep_some (today bd x : Date) (h : windowKeep today bd = some x) :
    x = bd ∧ 0 ≤ Date.sub bd today ∧ Date.sub bd today ≤ 7 := by
  unfold windowKeep at h
  split at h
  · cases h
    next hc => exact ⟨rfl, hc⟩
  · cases h

theorem weekendShift_total (d : Date) : ∃ d2, weekendShift (some d) = some d2 := by
  simp only [weekendShift]
  by_cases h : d.weekday ≥ 5
  · exact ⟨d.addDays (7 - d.weekday), by rw [if_pos h]⟩
  · exact ⟨d, by rw [if_neg h]⟩

/-- C3: a kept date on Saturday (weekday 5) is shifted forward by exactly 2
days, one on Sunday (weekday 6) by exactly 1 day, both landing on a Monday
(weekday 0); kept weekdays pass through unshifted; and every
`congratulation_date` the query emits is a kept, weekend-shifted date
rendered as `YYYY.MM.DD` by `strftime("%Y.%m.%d")`. -/
theorem claim3_weekend_shift :
    (∀ d : Date, d.ok = true →
      (d.weekday = 5 → weekendShift (some d) = some (d.addDays 2) ∧
        (d.addDays 2).weekday = 0) ∧
      (d.weekday = 6 → weekendShift (some d) = some (d.addDays 1) ∧
        (d.addDays 1).weekday = 0) ∧
      (d.weekday < 5 → weekendShift (some d) = some d)) ∧
    (∀ (book : AddressBook) (today : Date) (res : List (String × String)),
      book.getUpcomingBirthdays today = .ok res →
      ∀ q ∈ res, ∃ bd ds : Date,
        windowKeep today bd = some bd ∧ weekendShift (some bd) = some ds ∧
        q.2 = ds.strftimeYMD) := by
  constructor
  · intro d hd
    refine ⟨fun h5 => ⟨?_, ?_⟩, fun h6 => ⟨?_, ?_⟩, fun hw => ?_⟩
    · simp only [weekendShift]
      rw [if_pos (show d.weekday ≥ 5 by omega), h5]
    · rw [weekday_addDays d 2 hd, h5]
    · simp only [weekendShift]
      rw [if_pos (show d.weekday ≥ 5 by omega), h6]
    · rw [weekday_addDays d 1 hd, h6]
    · simp only [weekendShift]
      rw [if_neg (show ¬ d.weekday ≥ 5 by omega)]
  · intro book today res hres q hq
    unfold AddressBook.getUpcomingBirthdays at hres
    split at hres
    · cases hres
      exact absurd hq (by simp)
    · cases hrec : recomputeBdays (book.data.map Prod.snd) today with
      | error e => rw [hrec] at hres; cases hres
      | ok bdays =>
          rw [hrec] at hres
          cases hres
          unfold emitPairs at hq
          obtain ⟨pr, hpr, hprq⟩ := List.mem_filterMap.1 hq
          obtain ⟨d2, hd2, hqeq⟩ := Option.map_eq_some'.1 hprq
          obtain ⟨n, od⟩ := pr
          have hod : od ∈ (bdays.map (windowKeep today)).map weekendShift :=
            (List.of_mem_zip hpr).2
          obtain ⟨od0, hod0, hshift⟩ := List.mem_map.1 hod
          obtain ⟨bd0, _, hkeep⟩ := List.mem_map.1 hod0
          cases hod0eq : od0 with
          | none => rw [hod0eq] at hshift; rw [← hshift] at hd2; cases hd2
          | some x =>
              rw [hod0eq] at hkeep hshift
              obtain ⟨rfl, hw1, hw2⟩ := windowKeep_some today bd0 x hkeep
              refine ⟨x, d2, hkeep, ?_, ?_⟩
              · rw [hshift]
                exact hd2
              · rw [← hqeq]

/-- C3 witness: 2024-06-15 is a Saturday and shifts by 2 days to Monday; in
the spec scenario book, the emitted entry of contact B is a kept, shifted
date formatted as `YYYY.MM.DD`. -/
theorem claim3_witness :
    (weekendShift (some (Date.mk 2024 6 15)) =
        some ((Date.mk 2024 6 15).addDays 2) ∧
      ((Date.mk 2024 6 15).addDays 2).weekday = 0) ∧
    (∃ bd ds : Date,
      windowKeep today0 bd = some bd ∧ weekendShift (some bd) = some ds ∧
      ("B", "2024.06.17").2 = ds.strftimeYMD) :=
  ⟨(claim3_weekend_shift.1 (Date.mk 2024 6 15) (by decide)).1 (by decide),
   claim3_weekend_shift.2 bookABC today0
     [("A", "2024.06.12"), ("B", "2024.06.17")] rfl
     ("B", "2024.06.17") (by decide)⟩

/-- C4: on a book where every record has a recomputable birthday, the query
succeeds, its result lists exactly the records whose recomputed date `d`
satisfies `0 ≤ d - today ≤ 7` (inclusive), as `(name, congratulation_date)`
pairs in the book's iteration order; and a record's entry is present iff
its recomputed date lies in that window. -/
theorem claim4_window_filter (book : AddressBook) (today : Date)
    (h : ∀ p ∈ book.data, recordBdayOk today p = true) :
    book.getUpcomingBirthdays today =
      .ok (book.data.filterMap (upcomingEntry today)) ∧
    ∀ p ∈ book.data,
      (upcomingEntry today p ≠ none ↔
        ∃ b d, p.2.birthday = some b ∧
          pyReplaceYear b.value today.year = .ok d ∧
          0 ≤ Date.sub d today ∧ Date.sub d today ≤ 7) := by
  refine ⟨getUpcomingBirthdays_eq book today h, ?_⟩
  intro p hp
  have hpo := h p hp
  unfold recordBdayOk at hpo
  cases hb : p.2.birthday with
  | none => simp [hb] at hpo
  | some b =>
      cases hr : pyReplaceYear b.value today.year with
      | error e => simp [hb, hr] at hpo
      | ok d =>
          have hrec : recomputedDate today p = some d := by
            simp [recomputedDate, hb, hr]
          constructor
          · intro hne
            refine ⟨b, d, rfl, hr, ?_⟩
            by_cases hw : 0 ≤ Date.sub d today ∧ Date.sub d today ≤ 7
            · exact hw
            · exact absurd (by
                simp only [upcomingEntry, hrec]
                unfold windowKeep
                rw [if_neg hw]
                rfl) hne
          · rintro ⟨b2, d2, hb2, hr2, hw1, hw2⟩
            cases hb2
            rw [hr] at hr2
            cases hr2
            simp only [upcomingEntry, hrec]
            unfold windowKeep
            rw [if_pos ⟨hw1, hw2⟩]
            obtain ⟨d3, hd3⟩ := weekendShift_total d
            rw [hd3]
            simp

/-- C4 witness: the spec scenario.  Contacts A (06-12, Wednesday, 2 days
out) and B (06-15, Saturday, 5 days out) are kept in book order; contact C
(06-20, 10 days out) is dropped. -/
theorem claim4_witness :
    bookABC.getUpcomingBirthdays today0 =
      .ok [("A", "2024.06.12"), ("B", "2024.06.17")] :=
  ((claim4_window_filter bookABC today0 (by decide)).1).trans (by rfl)

/-! ### The Birthday parsing claims -/

theorem strptimeDMY_some_iff (s : String) :
    (∃ d, strptimeDMY s = some d) ↔
      ∃ ds ms ys, splitDots s.data = [ds, ms, ys] ∧
        dayField ds = true ∧ monthField ms = true ∧ yearField ys = true ∧
        1 ≤ digitsVal ys ∧
        digitsVal ds ≤ daysInMonth (digitsVal ys) (digitsVal ms) := by
  cases hsp : splitDots s.data with
  | nil =>
      have hm : strptimeDMY s = none := by unfold strptimeDMY; rw [hsp]
      simp [hm]
  | cons a t1 =>
      cases t1 with
      | nil =>
          have hm : strptimeDMY s = none := by unfold strptimeDMY; rw [hsp]
          simp [hm]
      | cons b t2 =>
          cases t2 with
          | nil =>
              have hm : strptimeDMY s = none := by unfold strptimeDMY; rw [hsp]
              simp [hm]
          | cons c t3 =>
              cases t3 with
              | cons d4 t4 =>
                  have hm : strptimeDMY s = none := by
                    unfold strptimeDMY; rw [hsp]
                  simp [hm]
              | nil =>
                  have hm : strptimeDMY s =
                      (if dayField a && monthField b && yearField c then
                        if 1 ≤ digitsVal c ∧
                            digitsVal a ≤
                              daysInMonth (digitsVal c) (digitsVal b) then
                          some ⟨digitsVal c, digitsVal b, digitsVal a⟩
                        else none
                      else none) := by
                    unfold strptimeDMY; rw [hsp]
                  rw [hm]
                  constructor
                  · rintro ⟨d, hd⟩
                    by_cases h1 : (dayField a && monthField b && yearField c) = true
                    · rw [if_pos h1] at hd
                      by_cases h2 : 1 ≤ digitsVal c ∧
                          digitsVal a ≤ daysInMonth (digitsVal c) (digitsVal b)
                      · simp only [Bool.and_eq_true] at h1
                        exact ⟨a, b, c, rfl, h1.1.1, h1.1.2, h1.2, h2.1, h2.2⟩
                      · rw [if_neg h2] at hd
                        cases hd
                    · rw [if_neg h1] at hd
                      cases hd
                  · rintro ⟨ds, ms, ys, heq, h1, h2, h3, h4, h5⟩
                    have heq2 : a = ds ∧ b = ms ∧ c = ys := by
                      simpa using heq
                    obtain ⟨rfl, rfl, rfl⟩ := heq2
                    rw [if_pos (by simp [h1, h2, h3]), if_pos ⟨h4, h5⟩]
                    exact ⟨_, rfl⟩

/-- C5 counterexample: the claim states that a `Birthday` string must
strictly match two-digit-day DD.MM.YYYY, so that a single-digit day such as
"5.10.2001" fails with `InvalidArgument`.  The `%d` pattern of CPython
`strptime` also accepts one-digit days, and the code therefore accepts this
string, storing October 5, 2001. -/
theorem claim5_cex_single_digit_day_accepted :
    Birthday.init (.str "5.10.2001") = .ok ⟨⟨2001, 10, 5⟩⟩ := rfl

/-- C5 (amended): constructing a `Birthday` from string `s` succeeds iff `s`
is day `.` month `.` year where day and month have one or two digits (day
value 1..31, month value 1..12), the year exactly four digits, and the
triple is a constructible date (year ≥ 1, day within the month); any other
string fails with `InvalidArgument`, as does an input that is neither a
string nor a date value. -/
theorem claim5_amended_lenient_format : ∀ s : String,
    ((∃ bd, Birthday.init (.str s) = .ok bd) ↔
      ∃ ds ms ys, splitDots s.data = [ds, ms, ys] ∧
        dayField ds = true ∧ monthField ms = true ∧ yearField ys = true ∧
        1 ≤ digitsVal ys ∧
        digitsVal ds ≤ daysInMonth (digitsVal ys) (digitsVal ms)) ∧
    ((∀ bd, Birthday.init (.str s) ≠ .ok bd) →
      ∃ e, Birthday.init (.str s) = .error e ∧ e.IsInvalidArgument) ∧
    (∃ e, Birthday.init .other = .error e ∧ e.IsInvalidArgument) := by
  intro s
  have hinit : Birthday.init (.str s) =
      (match strptimeDMY s with
        | some d => Except.ok ⟨d⟩
        | none =>
            Except.error (.valueError "Invalid date format. Use DD.MM.YYYY")) :=
    rfl
  refine ⟨?_, ?_, ⟨_, rfl, Or.inl ⟨_, rfl⟩⟩⟩
  · rw [← strptimeDMY_some_iff s]
    constructor
    · rintro ⟨bd, hbd⟩
      rw [hinit] at hbd
      cases hm : strptimeDMY s with
      | none => rw [hm] at hbd; simp at hbd
      | some d => exact ⟨d, rfl⟩
    · rintro ⟨d, hm⟩
      exact ⟨⟨d⟩, by rw [hinit, hm]⟩
  · intro hne
    cases hm : strptimeDMY s with
    | some d => exact absurd (by rw [hinit, hm]) (hne ⟨d⟩)
    | none =>
        refine ⟨_, ?_, Or.inr (Or.inr (Or.inl rfl))⟩
        rw [hinit, hm]

/-- C5 witness: the amended theorem instantiated at the accepted string
"31.12.2024" and the rejected string "31.13.2024" (month 13). -/
theorem claim5_witness :
    (∃ bd, Birthday.init (.str "31.12.2024") = .ok bd) ∧
    (∃ e, Birthday.init (.str "31.13.2024") = .error e ∧
      e.IsInvalidArgument) :=
  ⟨(claim5_amended_lenient_format "31.12.2024").1.mpr
      ⟨[Char.ofNat 51, Char.ofNat 49], [Char.ofNat 49, Char.ofNat 50],
        [Char.ofNat 50, Char.ofNat 48, Char.ofNat 50, Char.ofNat 52],
        by decide, by decide, by decide, by decide, by decide, by decide⟩,
   (claim5_amended_lenient_format "31.13.2024").2.1
      (fun bd h => Except.noConfusion h)⟩

/-- C6: a string of exactly 10 decimal digits constructs a `Phone` storing
the input unchanged; a string of any other length, or containing a
non-digit, fails with `InvalidArgument`. -/
theorem claim6_phone_validation : ∀ s : String,
    (s.length = 10 ∧ s.data.all Char.isDigit = true →
      Phone.init s = .ok ⟨s⟩) ∧
    (s.length ≠ 10 ∨ (∃ c ∈ s.data, c.isDigit = false) →
      Phone.init s =
        .error (.valueError "Phone number must contain exactly 10 digits") ∧
      PyErr.IsInvalidArgument
        (.valueError "Phone number must contain exactly 10 digits")) := by
  intro s
  constructor
  · rintro ⟨hlen, hdig⟩
    have hne : s.data.isEmpty = false := by
      cases hd : s.data with
      | nil =>
          rw [show s.length = s.data.length from rfl, hd] at hlen
          cases hlen
      | cons x xs => rfl
    unfold Phone.init
    rw [if_neg (by simp [pyIsDigit, hne, hdig, hlen])]
  · intro hbad
    refine ⟨?_, Or.inr (Or.inl rfl)⟩
    unfold Phone.init
    rcases hbad with hlen | ⟨c, hc, hcd⟩
    · rw [if_pos (by simp [hlen])]
    · have hdig : s.data.all Char.isDigit = false := by
        rw [List.all_eq_false]
        exact ⟨c, hc, by simp [hcd]⟩
      rw [if_pos (by simp [pyIsDigit, hdig])]

/-- C6 witness: the valid string "1234567890" round-trips; "123" (length 3)
fails with `InvalidArgument`. -/
theorem claim6_witness :
    Phone.init "1234567890" = .ok ⟨"1234567890"⟩ ∧
    Phone.init "123" =
      .error (.valueError "Phone number must contain exactly 10 digits") :=
  ⟨(claim6_phone_validation "1234567890").1 (by decide),
   ((claim6_phone_validation "123").2 (Or.inl (by decide))).1⟩

/-! ### Lemmas for `edit_phone` -/

theorem listIndexFirst_eq_none (l : List Phone) (p : Phone) (h : p ∉ l) :
    listIndexFirst l p = none := by
  induction l with
  | nil => rfl
  | cons x xs ih =>
      have hx : ¬ x = p := fun hc => h (hc ▸ List.mem_cons_self x xs)
      simp [listIndexFirst, hx, ih (fun hm => h (List.mem_cons_of_mem x hm))]

theorem listIndexFirst_append (l1 l2 : List Phone) (p : Phone) (h : p ∉ l1) :
    listIndexFirst (l1 ++ p :: l2) p = some l1.length := by
  induction l1 with
  | nil => simp [listIndexFirst]
  | cons x xs ih =>
      have hx : ¬ x = p := fun hc => h (hc ▸ List.mem_cons_self x xs)
      have ih2 := ih (fun hm => h (List.mem_cons_of_mem x hm))
      simp [listIndexFirst, hx, ih2]

theorem set_append_cons (l1 l2 : List Phone) (p q : Phone) :
    (l1 ++ p :: l2).set l1.length q = l1 ++ q :: l2 := by
  induction l1 with
  | nil => rfl
  | cons x xs ih => simp [List.set, ih]

/-- C7: with valid phone strings `oldP` (validating to `po`) and `newP`
(validating to `pn`), `edit_phone` fails with `DuplicateField` when `pn` is
already present (leaving the record unchanged); otherwise fails with
`NotFound` when `po` is absent (record unchanged); otherwise replaces the
first occurrence of `po` by `pn` in place, leaving every other phone and
the order untouched. -/
theorem claim7_edit_phone (r : Record) (oldP newP : String) (po pn : Phone)
    (ho : Phone.init oldP = .ok po) (hn : Phone.init newP = .ok pn) :
    (pn ∈ r.phones →
      r.editPhone oldP newP =
        (.error (.valueError "New phone already exists"), r) ∧
      PyErr.IsDuplicateField (.valueError "New phone already exists")) ∧
    (pn ∉ r.phones → po ∉ r.phones →
      r.editPhone oldP newP =
        (.error (.valueError (phoneNotFoundMsg oldP)), r) ∧
      PyErr.IsNotFound (.valueError (phoneNotFoundMsg oldP))) ∧
    (∀ l1 l2, pn ∉ r.phones → r.phones = l1 ++ po :: l2 → po ∉ l1 →
      r.editPhone oldP newP = (.ok (), { r with phones := l1 ++ pn :: l2 })) := by
  refine ⟨?_, ?_, ?_⟩
  · intro hmem
    refine ⟨?_, Or.inr (Or.inl rfl)⟩
    unfold Record.editPhone
    simp only [hn]
    rw [if_pos hmem]
  · intro hnew hold
    refine ⟨?_, Or.inr (Or.inl ⟨oldP, rfl⟩)⟩
    unfold Record.editPhone
    simp only [hn, ho, if_neg hnew, listIndexFirst_eq_none r.phones po hold]
  · intro l1 l2 hnew heq hno
    rw [heq] at hnew
    unfold Record.editPhone
    simp only [hn, ho, heq,
      listIndexFirst_append l1 l2 po hno, set_append_cons]
    rw [if_neg hnew]

def rec2 : Record := ⟨"x", [⟨"1111111111"⟩, ⟨"2222222222"⟩], none⟩

/-- C7 witness: on a record holding phones 111... and 222..., editing
222... to 333... replaces it in place; editing 111... to the already
present 222... fails with `DuplicateField` and leaves the record as it
was. -/
theorem claim7_witness :
    (rec2.editPhone "2222222222" "3333333333" =
      (.ok (), ⟨"x", [⟨"1111111111"⟩, ⟨"3333333333"⟩], none⟩)) ∧
    (rec2.editPhone "1111111111" "2222222222" =
      (.error (.valueError "New phone already exists"), rec2) ∧
      PyErr.IsDuplicateField (.valueError "New phone already exists")) :=
  ⟨(claim7_edit_phone rec2 "2222222222" "3333333333"
        ⟨"2222222222"⟩ ⟨"3333333333"⟩ rfl rfl).2.2
      [⟨"1111111111"⟩] [] (by decide) rfl (by decide),
   (claim7_edit_phone rec2 "1111111111" "2222222222"
        ⟨"1111111111"⟩ ⟨"2222222222"⟩ rfl rfl).1 (by decide)⟩

/-! ### Atomicity of the mutating operations -/

/-- C8: every mutating operation on records and on the book is atomic — if
it returns an error, the state component it returns is exactly the input
state: no phone list, birthday, or book content is partially mutated. -/
theorem claim8_atomicity :
    (∀ (r : Record) (s : String) (e : PyErr),
      (r.addPhone s).1 = .error e → (r.addPhone s).2 = r) ∧
    (∀ (r : Record) (s : String) (e : PyErr),
      (r.removePhone s).1 = .error e → (r.removePhone s).2 = r) ∧
    (∀ (r : Record) (s1 s2 : String) (e : PyErr),
      (r.editPhone s1 s2).1 = .error e → (r.editPhone s1 s2).2 = r) ∧
    (∀ (r : Record) (b : BirthdayInput) (e : PyErr),
      (r.addBirthday b).1 = .error e → (r.addBirthday b).2 = r) ∧
    (∀ (book : AddressBook) (rec : Record) (e : PyErr),
      (book.addRecord rec).1 = .error e → (book.addRecord rec).2 = book) ∧
    (∀ (book : AddressBook) (n : String) (e : PyErr),
      (book.delete n).1 = .error e → (book.delete n).2 = book) := by
  refine ⟨?_, ?_, ?_, ?_, ?_, ?_⟩
  · intro r s e h
    unfold Record.addPhone at h ⊢
    cases hp : Phone.init s with
    | error e2 => simp
    | ok p =>
        simp only [hp] at h ⊢
        by_cases hm : p ∈ r.phones
        · rw [if_pos hm]
        · rw [if_neg hm] at h
          simp at h
  · intro r s e h
    unfold Record.removePhone at h ⊢
    cases hp : Phone.init s with
    | error e2 => cases e2 <;> simp
    | ok p =>
        simp only [hp] at h ⊢
        cases hr : listRemoveFirst r.phones p with
        | none => simp
        | some l => simp [hr] at h
  · intro r s1 s2 e h
    unfold Record.editPhone at h ⊢
    cases hn : Phone.init s2 with
    | error e2 => simp
    | ok np =>
        simp only [hn] at h ⊢
        by_cases hm : np ∈ r.phones
        · rw [if_pos hm]
        · rw [if_neg hm] at h ⊢
          cases ho : Phone.init s1 with
          | error e3 => cases e3 <;> simp
          | ok op =>
              simp only [ho] at h ⊢
              cases hi : listIndexFirst r.phones op with
              | none => simp
              | some i => simp [hi] at h
  · intro r b e h
    unfold Record.addBirthday at h ⊢
    cases hb : r.birthday with
    | some b0 => simp
    | none =>
        simp only [hb] at h ⊢
        cases hi : Birthday.init b with
        | error e2 => simp
        | ok bd => simp [hi] at h
  · intro book rec e h
    unfold AddressBook.addRecord at h ⊢
    by_cases hm : book.keys.contains rec.name = true
    · rw [if_pos hm]
    · rw [if_neg hm] at h
      simp at h
  · intro book n e h
    unfold AddressBook.delete at h ⊢
    by_cases hm : book.keys.contains n = true
    · rw [if_pos hm] at h
      simp at h
    · rw [if_neg hm]

/-- C8 witness: adding the already present phone 111... to `rec2` fails,
and the returned record equals `rec2` unchanged. -/
theorem claim8_witness : (rec2.addPhone "1111111111").2 = rec2 :=
  claim8_atomicity.1 rec2 "1111111111"
    (.valueError "Phone already exists") rfl

/-! ### The phone-list invariant -/

/-- An arbitrary interleaving of the phone-mutating calls on one record. -/
inductive PhoneOp where
  | add (s : String)
  | remove (s : String)
  | edit (oldP newP : String)

/-- The record state after one call, whether it succeeded or raised. -/
def applyPhoneOp (r : Record) : PhoneOp → Record
  | .add s => (r.addPhone s).2
  | .remove s => (r.removePhone s).2
  | .edit a b => (r.editPhone a b).2

def applyPhoneOps (r : Record) (ops : List PhoneOp) : Record :=
  ops.foldl applyPhoneOp r

theorem addPhone_phones (r : Record) (s : String) :
    (r.addPhone s).2.phones = r.phones ∨
    ∃ p, p ∉ r.phones ∧ (r.addPhone s).2.phones = r.phones ++ [p] := by
  unfold Record.addPhone
  cases hp : Phone.init s with
  | error e => exact Or.inl rfl
  | ok p =>
      by_cases hm : p ∈ r.phones
      · exact Or.inl (by simp [hm])
      · exact Or.inr ⟨p, hm, by simp [hm]⟩

theorem listRemoveFirst_sublist (l : List Phone) (p : Phone) :
    ∀ l2, listRemoveFirst l p = some l2 → l2.Sublist l := by
  induction l with
  | nil => intro l2 h; cases h
  | cons x xs ih =>
      intro l2 h
      unfold listRemoveFirst at h
      by_cases hx : x = p
      · rw [if_pos hx] at h
        cases h
        exact List.sublist_cons_self x xs
      · rw [if_neg hx] at h
        cases hr : listRemoveFirst xs p with
        | none => rw [hr] at h; cases h
        | some l3 =>
            rw [hr] at h
            cases h
            exact List.Sublist.cons₂ x (ih l3 hr)

theorem removePhone_phones (r : Record) (s : String) :
    (r.removePhone s).2.phones.Sublist r.phones := by
  unfold Record.removePhone
  cases hp : Phone.init s with
  | error e => cases e <;> exact List.Sublist.refl _
  | ok p =>
      cases hr : listRemoveFirst r.phones p with
      | none =>
          simp only [hr]
          exact List.Sublist.refl _
      | some l =>
          simpa [hr] using listRemoveFirst_sublist r.phones p l hr

theorem editPhone_phones (r : Record) (a b : String) :
    (r.editPhone a b).2.phones = r.phones ∨
    ∃ i p, p ∉ r.phones ∧ (r.editPhone a b).2.phones = r.phones.set i p := by
  unfold Record.editPhone
  cases hn : Phone.init b with
  | error e => exact Or.inl rfl
  | ok np =>
      by_cases hm : np ∈ r.phones
      · exact Or.inl (by simp [hm])
      · cases ho : Phone.init a with
        | error e => cases e <;> exact Or.inl (by simp [hm])
        | ok op =>
            cases hi : listIndexFirst r.phones op with
            | none => exact Or.inl (by simp [hm, hi])
            | some i => exact Or.inr ⟨i, np, hm, by simp [hm, hi]⟩

/-- C9: the phone list of a record never holds two equal values, across any
sequence of `add_phone` / `remove_phone` / `edit_phone` calls, succeeding
or failing; and each call preserves insertion order — `add_phone` at most
appends at the end, `remove_phone` at most deletes elements (a sublist
keeps relative order), `edit_phone` at most overwrites one position in
place. -/
theorem claim9_phones_invariant :
    (∀ (r : Record) (ops : List PhoneOp),
      r.phones.Nodup → (applyPhoneOps r ops).phones.Nodup) ∧
    (∀ (r : Record) (s : String),
      (r.addPhone s).2.phones = r.phones ∨
      ∃ p, p ∉ r.phones ∧ (r.addPhone s).2.phones = r.phones ++ [p]) ∧
    (∀ (r : Record) (s : String),
      (r.removePhone s).2.phones.Sublist r.phones) ∧
    (∀ (r : Record) (a b : String),
      (r.editPhone a b).2.phones = r.phones ∨
      ∃ i p, p ∉ r.phones ∧ (r.editPhone a b).2.phones = r.phones.set i p) := by
  have hstep : ∀ (r : Record) (op : PhoneOp),
      r.phones.Nodup → (applyPhoneOp r op).phones.Nodup := by
    intro r op hnd
    cases op with
    | add s =>
        show (r.addPhone s).2.phones.Nodup
        rcases addPhone_phones r s with h | ⟨p, hp, h⟩
        · rw [h]; exact hnd
        · rw [h]
          exact List.Nodup.append hnd (List.nodup_singleton p)
            (fun a ha hb => hp (List.mem_singleton.1 hb ▸ ha))
    | remove s =>
        show (r.removePhone s).2.phones.Nodup
        exact (removePhone_phones r s).nodup hnd
    | edit a b =>
        show (r.editPhone a b).2.phones.Nodup
        rcases editPhone_phones r a b with h | ⟨i, p, hp, h⟩
        · rw [h]; exact hnd
        · rw [h]; exact hnd.set hp
  refine ⟨?_, addPhone_phones, removePhone_phones, editPhone_phones⟩
  intro r ops
  induction ops generalizing r with
  | nil => exact fun h => h
  | cons op rest ih =>
      intro hnd
      exact ih (applyPhoneOp r op) (hstep r op hnd)

/-- C9 witness: the invariant applied to `rec2` through an add, a remove,
an add of an already present value, and an edit. -/
theorem claim9_witness :
    (applyPhoneOps rec2
      [.add "4444444444", .remove "1111111111", .add "2222222222",
        .edit "2222222222" "5555555555"]).phones.Nodup :=
  claim9_phones_invariant.1 rec2
    [.add "4444444444", .remove "1111111111", .add "2222222222",
      .edit "2222222222" "5555555555"] (by decide)

/-- C10: when `s` would be rejected by the `Phone` validator,
`remove_phone s` and `edit_phone s new` (with a valid, non-duplicate `new`)
fail with the `NotFound` phone error — the validation failure is caught by
the `try` blocks and re-raised as not-found — and `find_phone s` returns an
absent result without raising, provided the record's phones satisfy the
validator (as every phone admitted by `add_phone`/`edit_phone` does). -/
theorem claim10_invalid_old_phone_not_found (r : Record) (s : String)
    (hinv : pyIsDigit s = false ∨ s.length ≠ 10) :
    ((r.removePhone s).1 = .error (.valueError "Phone not found") ∧
      PyErr.IsNotFound (.valueError "Phone not found")) ∧
    (∀ (ns : String) (pn : Phone), Phone.init ns = .ok pn → pn ∉ r.phones →
      (r.editPhone s ns).1 = .error (.valueError (phoneNotFoundMsg s)) ∧
      PyErr.IsNotFound (.valueError (phoneNotFoundMsg s))) ∧
    ((∀ p ∈ r.phones, pyIsDigit p.value = true ∧ p.value.length = 10) →
      r.findPhone s = none) := by
  have hini : Phone.init s =
      .error (.valueError "Phone number must contain exactly 10 digits") := by
    unfold Phone.init
    rcases hinv with h | h
    · rw [if_pos (by simp [h])]
    · rw [if_pos (by simp [h])]
  refine ⟨⟨?_, Or.inl rfl⟩, ?_, ?_⟩
  · unfold Record.removePhone
    simp only [hini]
  · intro ns pn hns hpn
    refine ⟨?_, Or.inr (Or.inl ⟨s, rfl⟩)⟩
    unfold Record.editPhone
    simp only [hns, if_neg hpn, hini]
  · intro hval
    unfold Record.findPhone
    rw [List.find?_eq_none]
    intro p hp
    have hpv := hval p hp
    simp only [decide_eq_true_eq]
    intro hps
    rcases hinv with h | h
    · rw [hps] at hpv
      cases hpv.1.symm.trans h
    · exact h (hps ▸ hpv.2)

/-- C10 witness: on `rec2`, the invalid string "12" yields the not-found
errors from `remove_phone` and `edit_phone` and an absent `find_phone`
result. -/
theorem claim10_witness :
    (rec2.removePhone "12").1 = .error (.valueError "Phone not found") ∧
    (rec2.editPhone "12" "9999999999").1 =
      .error (.valueError (phoneNotFoundMsg "12")) ∧
    rec2.findPhone "12" = none :=
  ⟨((claim10_invalid_old_phone_not_found rec2 "12" (Or.inr (by decide))).1).1,
   ((claim10_invalid_old_phone_not_found rec2 "12" (Or.inr (by decide))).2.1
      "9999999999" ⟨"9999999999"⟩ rfl (by decide)).1,
   (claim10_invalid_old_phone_not_found rec2 "12"
      (Or.inr (by decide))).2.2 (by decide)⟩

end ContactBook
